import Mathlib

/-!
# Verification of the DSN parsing/mapping core

Shallow embedding of the DSN parser (`dsnParser.service.ts`) and the
DSN-to-questions mapper (`dsnToQuestions.mapper.ts`) of the repository,
together with theorems settling the frozen claims about them.

Strings are processed at the character-list level so that every definition
is executable by the kernel.  JS objects (`Record<string, string>`) are
modelled as insertion-ordered association lists; JS `Date` values are
modelled at day granularity (`JsDate`), with the Invalid Date value made
explicit; functions that can throw in JS (date-fns `format`) are modelled
as `Option`-returning.  The ambient clock (`new Date()`) is passed as an
explicit `currentYear` / `parsedAtIso` parameter.
-/

namespace Dsn

/-- JS-object-style field map: insertion-ordered association list from
string keys to string values (models `Record<string, string>`). -/
abbrev Blk := List (String × String)

/-- JS object assignment `obj[k] = v`: overwrite in place when the key is
already present (preserving key order), otherwise append at the end. -/
def setField (b : Blk) (k v : String) : Blk :=
  if b.any (fun p => p.1 == k) then
    b.map (fun p => if p.1 == k then (k, v) else p)
  else b ++ [(k, v)]

/-- Property read `obj[k]`: `none` models JS `undefined`. -/
def getField (b : Blk) (k : String) : Option String :=
  b.lookup k

/-- JS truthiness of a string-valued property: present and non-empty. -/
def truthy (b : Blk) (k : String) : Bool :=
  match b.lookup k with
  | some v => v != ""
  | none => false

/-! ## Line tokenizer (`parseLine` and the surrounding line splitting) -/

/-- The single-quote character, built numerically (code point 39). -/
def QUOTE : Char := Char.ofNat 39

/-- Characters removed by JS `String.prototype.trim` (the ones that can
realistically occur: ASCII whitespace, NBSP, BOM, LS, PS). -/
def jsIsTrimmable (c : Char) : Bool :=
  c == ' ' || c == '\t' || c == '\n' || c == '\r' ||
  c == Char.ofNat 11 || c == Char.ofNat 12 || c == Char.ofNat 0xa0 ||
  c == Char.ofNat 0x2028 || c == Char.ofNat 0x2029 || c == Char.ofNat 0xfeff

/-- `line.trim()` on a character list. -/
def trimChars (cs : List Char) : List Char :=
  ((cs.dropWhile jsIsTrimmable).reverse.dropWhile jsIsTrimmable).reverse

/-- `content.split("\n")` on a character list. -/
def splitLines : List Char → List (List Char)
  | [] => [[]]
  | c :: cs =>
    let r := splitLines cs
    if c == '\n' then [] :: r
    else (c :: r.headD []) :: r.tail

/-- One parsed DSN line: `{code, value, block, isHeader}`. -/
structure Token where
  code : String
  value : String
  block : String
  isHeader : Bool
deriving DecidableEq

/-- `pat` is an initial segment of `cs` (structural model of JS
`String.prototype.startsWith`, kernel-reducible). -/
def charsStart : List Char → List Char → Bool
  | [], _ => true
  | _ :: _, [] => false
  | p :: ps, c :: cs => p == c && charsStart ps cs

/-- `code.startsWith(pat)`. -/
def codeStarts (code pat : String) : Bool := charsStart pat.data code.data

def isUpperAZ (c : Char) : Bool := 'A' ≤ c && c ≤ 'Z'

def isDigitCh (c : Char) : Bool := '0' ≤ c && c ≤ '9'

/-- Maximal run of digits at the front (`\d+` with greedy matching). -/
def spanDigits (cs : List Char) : List Char × List Char :=
  (cs.takeWhile isDigitCh, cs.dropWhile isDigitCh)

/-- Match the code part of the line regex
`^([A-Z]\d+\.G\d+\.\d+(?:\.\d+)?),` returning the code characters and the
remainder after the comma.  Greedy digit runs make the regex deterministic,
so no backtracking is needed. -/
def matchCode (cs : List Char) : Option (List Char × List Char) :=
  match cs with
  | [] => none
  | c0 :: rest =>
    if isUpperAZ c0 then
      let p1 := spanDigits rest
      if p1.1.isEmpty then none else
      match p1.2 with
      | '.' :: 'G' :: r2 =>
        let p2 := spanDigits r2
        if p2.1.isEmpty then none else
        match p2.2 with
        | '.' :: r4 =>
          let p3 := spanDigits r4
          if p3.1.isEmpty then none else
          match p3.2 with
          | ',' :: r6 =>
            some (c0 :: p1.1 ++ '.' :: 'G' :: p2.1 ++ '.' :: p3.1, r6)
          | '.' :: r6 =>
            let p4 := spanDigits r6
            if p4.1.isEmpty then none else
            match p4.2 with
            | ',' :: r8 =>
              some (c0 :: p1.1 ++ '.' :: 'G' :: p2.1 ++ '.' :: p3.1 ++ '.' :: p4.1, r8)
            | _ => none
          | _ => none
        | _ => none
      | _ => none
    else none

/-- Characters matched by `.` in the JS regex (anything but a line
terminator). -/
def isDotChar (c : Char) : Bool :=
  !(c == '\n' || c == '\r' || c == Char.ofNat 0x2028 || c == Char.ofNat 0x2029)

/-- Match the value part `('.*'|'')$`: a single-quoted payload spanning the
whole remainder.  Returns the interior characters (the payload without the
surrounding quotes). -/
def matchQuoted (cs : List Char) : Option (List Char) :=
  match cs with
  | [] => none
  | c :: rest =>
    if c == QUOTE then
      match rest.reverse with
      | [] => none
      | lastC :: midRev =>
        if lastC == QUOTE && midRev.all isDotChar then some midRev.reverse
        else none
    else none

/-- `parseLine` of `dsnParser.service.ts`: trim, match the DSN line regex,
produce the token.  A header line is one whose quoted value is the empty
quote pair; `block` is the first dot-separated segment of the code. -/
def parseLine (line : List Char) : Option Token :=
  let t := trimChars line
  if t.isEmpty then none
  else
    match matchCode t with
    | none => none
    | some cr =>
      match matchQuoted cr.2 with
      | none => none
      | some interior =>
        let isHeader := interior.isEmpty
        some { code := String.mk cr.1
               value := if isHeader then "" else String.mk interior
               block := String.mk (cr.1.takeWhile (fun c => !(c == '.')))
               isHeader := isHeader }

/-! ## Field mappers (code → field-name tables) -/

def companyFields (code : String) : Option String :=
  match code with
  | "S10.G00.00.001" => some "softwareName"
  | "S10.G00.00.002" => some "softwareEditor"
  | "S10.G00.00.003" => some "softwareVersion"
  | "S10.G00.01.001" => some "siret"
  | "S10.G00.01.003" => some "companyName"
  | "S10.G00.01.004" => some "address"
  | "S10.G00.01.006" => some "city"
  | "S10.G00.01.009" => some "contactName"
  | _ => none

def handleCompanyData (info : Blk) (code value : String) : Blk :=
  setField info ((companyFields code).getD code) value

def establishmentFields (code : String) : Option String :=
  match code with
  | "S20.G00.05.001" => some "establishmentType"
  | "S20.G00.05.002" => some "codeMotif"
  | "S20.G00.05.004" => some "siret"
  | "S20.G00.05.005" => some "dateDebutPeriode"
  | _ => none

def handleEstablishmentData (info : Blk) (code value : String) : Blk :=
  setField info ((establishmentFields code).getD code) value

def identityMapping (code : String) : Option String :=
  match code with
  | "S21.G00.06.001" => some "nir"
  | "S21.G00.06.002" => some "codeInterne"
  | "S21.G00.06.003" => some "nomUsage"
  | "S21.G00.06.004" => some "adresse"
  | "S21.G00.06.005" => some "codePostal"
  | "S21.G00.06.006" => some "ville"
  | _ => none

def handleIdentityData (identity : Blk) (code value : String) : Blk :=
  setField identity ((identityMapping code).getD code) value

def addressMapping (code : String) : Option String :=
  match code with
  | "S21.G00.11.001" => some "siret"
  | "S21.G00.11.002" => some "nic"
  | "S21.G00.11.003" => some "adresse"
  | _ => none

def handleAddressData (address : Blk) (code value : String) : Blk :=
  setField address ((addressMapping code).getD code) value

def personalMapping (code : String) : Option String :=
  match code with
  | "S21.G00.30.001" => some "nir"
  | "S21.G00.30.002" => some "nomFamille"
  | "S21.G00.30.003" => some "prenoms"
  | "S21.G00.30.004" => some "nomUsage"
  | "S21.G00.30.005" => some "sexe"
  | "S21.G00.30.006" => some "dateNaissance"
  | "S21.G00.30.007" => some "lieuNaissance"
  | "S21.G00.30.008" => some "adresse"
  | "S21.G00.30.009" => some "codePostal"
  | "S21.G00.30.010" => some "ville"
  | "S21.G00.30.011" => some "paysDomicile"
  | "S21.G00.30.029" => some "nationalite"
  | _ => none

def handlePersonalData (personal : Blk) (code value : String) : Blk :=
  setField personal ((personalMapping code).getD code) value

def contractMapping (code : String) : Option String :=
  match code with
  | "S21.G00.40.001" => some "dateNaissance"
  | "S21.G00.40.002" => some "sexe"
  | "S21.G00.40.003" => some "typeContrat"
  | "S21.G00.40.005" => some "statutCategorie"
  | "S21.G00.40.006" => some "emploi"
  | "S21.G00.40.010" => some "dateDebutContrat"
  | "S21.G00.40.030" => some "dateFinContrat"
  | _ => none

def handleContractData (contract : Blk) (code value : String) : Blk :=
  setField contract ((contractMapping code).getD code) value

def salaryMapping (code : String) : Option String :=
  match code with
  | "S21.G00.50.001" => some "debutPeriode"
  | "S21.G00.50.002" => some "montantRemuneration"
  | _ => none

def handleSalaryData (salary : Blk) (code value : String) : Blk :=
  setField salary ((salaryMapping code).getD code) value

def periodMapping (code : String) : Option String :=
  match code with
  | "S21.G00.51.001" => some "debutPeriode"
  | "S21.G00.51.002" => some "finPeriode"
  | _ => none

def handlePeriodData (period : Blk) (code value : String) : Blk :=
  setField period ((periodMapping code).getD code) value

/-! ## Data model -/

structure DsnEmployee where
  employeeId : Nat
  identity : Option Blk
  address : Option Blk
  personal : Blk
  contract : Blk
  salary : Blk
  period : Blk
deriving DecidableEq, Inhabited

structure DsnEstablishment where
  establishmentInfo : Blk
  employees : List DsnEmployee
deriving DecidableEq, Inhabited

structure DsnCompany where
  companyInfo : Blk
  establishments : List DsnEstablishment
deriving DecidableEq, Inhabited

structure DsnMetadata where
  totalEmployees : Nat
  totalEstablishments : Nat
  parsedAt : String
  filename : String
  parsingMethod : String
deriving DecidableEq, Inhabited

structure ParsedDsnData where
  company : DsnCompany
  metadata : DsnMetadata
deriving DecidableEq, Inhabited

/-! ## The entity-building walk (`parseDsnContent` main loop)

JS mutates `currentEstablishment` / `currentEmployee` through references
into the tree.  In the source, `currentEstablishment` is always the last
establishment pushed (and is null exactly when none has been pushed), and
`currentEmployee` is always the last employee of the establishment it was
pushed into; the state below records that establishment's index in
`curEmpEst`. -/

structure WalkState where
  companyInfo : Blk
  establishments : List DsnEstablishment
  curEmpEst : Option Nat
  employeeCounter : Nat
  inIdentityBlock : Bool
  inAddressBlock : Bool
  inPersonalBlock : Bool
  inContractBlock : Bool
  inSalaryBlock : Bool
  inPeriodBlock : Bool
deriving DecidableEq

def initState : WalkState :=
  { companyInfo := [], establishments := [], curEmpEst := none,
    employeeCounter := 0,
    inIdentityBlock := false, inAddressBlock := false, inPersonalBlock := false,
    inContractBlock := false, inSalaryBlock := false, inPeriodBlock := false }

/-- Apply `f` to the last element of a list (models mutation through the
`currentEstablishment` / `currentEmployee` reference). -/
def modifyLast (f : α → α) : List α → List α
  | [] => []
  | [a] => [f a]
  | a :: b :: rest => a :: modifyLast f (b :: rest)

/-- Apply `f` to the element at index `i`. -/
def modifyIdx (f : α → α) : Nat → List α → List α
  | _, [] => []
  | 0, a :: rest => f a :: rest
  | n + 1, a :: rest => a :: modifyIdx f n rest

/-- On a header line: reset all six block flags, then set the one matching
the code (the if/else chain of the source). -/
def setFlags (st : WalkState) (code : String) : WalkState :=
  let st0 := { st with
    inIdentityBlock := false, inAddressBlock := false, inPersonalBlock := false,
    inContractBlock := false, inSalaryBlock := false, inPeriodBlock := false }
  if codeStarts code "S21.G00.06" then { st0 with inIdentityBlock := true }
  else if codeStarts code "S21.G00.11" then { st0 with inAddressBlock := true }
  else if codeStarts code "S21.G00.30" then { st0 with inPersonalBlock := true }
  else if codeStarts code "S21.G00.40" then { st0 with inContractBlock := true }
  else if codeStarts code "S21.G00.50" then { st0 with inSalaryBlock := true }
  else if codeStarts code "S21.G00.51" then { st0 with inPeriodBlock := true }
  else st0

def emptyEstablishment : DsnEstablishment := { establishmentInfo := [], employees := [] }

def pushEstablishment (st : WalkState) : WalkState :=
  { st with establishments := st.establishments ++ [emptyEstablishment] }

/-- `case "S20"`: a header (or a data line with no open establishment)
opens a fresh establishment; a data line is routed to the current one. -/
def stepS20 (st : WalkState) (tok : Token) : WalkState :=
  let st1 := if tok.isHeader || st.establishments.isEmpty then pushEstablishment st else st
  if !tok.isHeader then
    { st1 with establishments :=
        (modifyLast (fun est =>
          { est with establishmentInfo :=
              handleEstablishmentData est.establishmentInfo tok.code tok.value })
          st1.establishments) }
  else st1

/-- Route a non-header S21 data line to the flagged sub-block of the
current employee; identity/address writes are no-ops when the optional
container is absent. -/
def routeEmployeeData (st : WalkState) (tok : Token) (emp : DsnEmployee) : DsnEmployee :=
  if st.inIdentityBlock && emp.identity.isSome then
    { emp with identity := emp.identity.map (fun b => handleIdentityData b tok.code tok.value) }
  else if st.inAddressBlock && emp.address.isSome then
    { emp with address := emp.address.map (fun b => handleAddressData b tok.code tok.value) }
  else if st.inPersonalBlock then
    { emp with personal := handlePersonalData emp.personal tok.code tok.value }
  else if st.inContractBlock then
    { emp with contract := handleContractData emp.contract tok.code tok.value }
  else if st.inSalaryBlock then
    { emp with salary := handleSalaryData emp.salary tok.code tok.value }
  else if st.inPeriodBlock then
    { emp with period := handlePeriodData emp.period tok.code tok.value }
  else emp

/-- The employee-start marker branch: increment the global counter, build
the fresh employee (only the globally first one, pushed into a still-empty
establishment, receives the empty identity/address containers), push it
onto the current (last) establishment. -/
def createEmployee (st1 : WalkState) : WalkState :=
  let n := st1.employeeCounter + 1
  let withBlocks := n == 1 && (st1.establishments.getLastD emptyEstablishment).employees.isEmpty
  let emp : DsnEmployee :=
    { employeeId := n,
      identity := if withBlocks then some [] else none,
      address := if withBlocks then some [] else none,
      personal := [], contract := [], salary := [], period := [] }
  let st' := { st1 with establishments :=
    (modifyLast (fun est => { est with employees := est.employees ++ [emp] })
      st1.establishments) }
  { st' with employeeCounter := n,
             curEmpEst := some (st'.establishments.length - 1) }

/-- Route a data line to the current employee (the last employee of the
establishment at index `curEmpEst`), if any. -/
def routeStep (st2 : WalkState) (tok : Token) : WalkState :=
  match st2.curEmpEst with
  | some i =>
    { st2 with establishments :=
        (modifyIdx (fun est =>
          { est with employees := modifyLast (routeEmployeeData st2 tok) est.employees })
          i st2.establishments) }
  | none => st2

/-- `case "S21"`: auto-create an establishment if none is open; the
employee-start marker `S21.G00.30,''` creates a new employee; data lines
go to the current employee's flagged block. -/
def stepS21 (st : WalkState) (tok : Token) : WalkState :=
  let st1 := if st.establishments.isEmpty then pushEstablishment st else st
  let st2 := if tok.code == "S21.G00.30" && tok.isHeader then createEmployee st1 else st1
  if !tok.isHeader then routeStep st2 tok else st2

/-- The `switch (block)` of the main loop. -/
def dispatchBlock (st1 : WalkState) (tok : Token) : WalkState :=
  match tok.block with
  | "S10" => { st1 with companyInfo := handleCompanyData st1.companyInfo tok.code tok.value }
  | "S20" => stepS20 st1 tok
  | "S21" => stepS21 st1 tok
  | _ => st1

/-- One iteration of the main parsing loop: tokenize the line, update the
block flags on headers, then dispatch on the block segment. -/
def processLine (st : WalkState) (line : List Char) : WalkState :=
  match parseLine line with
  | none => st
  | some tok => dispatchBlock (if tok.isHeader then setFlags st tok.code else st) tok

/-- `content.split("\n").filter(line => line.trim().length > 0)`. -/
def dsnLines (content : String) : List (List Char) :=
  (splitLines content.data).filter (fun l => (trimChars l).length > 0)

/-- The forward-only main walk over all (non-empty) lines. -/
def mainWalk (lines : List (List Char)) : WalkState :=
  lines.foldl processLine initState

/-! ## Backfill pass -/

/-- Loop body of `backfillFirstEmployeeData`: rescan the lines tracking
only the identity/address flags (exact code equality on headers), break at
the `S21.G00.30` header, write data into the first employee's
identity/address containers when present. -/
def backfillGo : List (List Char) → Bool → Bool → DsnEmployee → DsnEmployee
  | [], _, _, emp => emp
  | line :: rest, inId, inAd, emp =>
    match parseLine line with
    | none => backfillGo rest inId inAd emp
    | some tok =>
      if tok.isHeader then
        if tok.code == "S21.G00.30" then emp
        else backfillGo rest (tok.code == "S21.G00.06") (tok.code == "S21.G00.11") emp
      else
        let emp' :=
          if inId && emp.identity.isSome then
            { emp with identity := emp.identity.map (fun b => handleIdentityData b tok.code tok.value) }
          else if inAd && emp.address.isSome then
            { emp with address := emp.address.map (fun b => handleAddressData b tok.code tok.value) }
          else emp
        backfillGo rest inId inAd emp'

def backfillFirstEmployeeData (lines : List (List Char)) (firstEmployee : DsnEmployee) : DsnEmployee :=
  backfillGo lines false false firstEmployee

/-- Replace an establishment's first employee by its backfilled version. -/
def backfillEst (lines : List (List Char)) (est : DsnEstablishment) : DsnEstablishment :=
  { est with employees :=
      match est.employees with
      | [] => []
      | e0 :: restEmp => backfillFirstEmployeeData lines e0 :: restEmp }

/-- The post-walk backfill gate of `parseDsnContent`: if the current (last)
establishment has employees and its first employee's identity container
exists and has zero keys, rerun the line scan on that first employee. -/
def applyBackfill (lines : List (List Char)) (ests : List DsnEstablishment) : List DsnEstablishment :=
  match ests.getLast? with
  | none => ests
  | some lastE =>
    match lastE.employees with
    | [] => ests
    | fe :: _ =>
      if fe.identity = some [] then modifyLast (backfillEst lines) ests
      else ests

def countTotalEmployees (company : DsnCompany) : Nat :=
  company.establishments.foldl (fun total est => total + est.employees.length) 0

/-- `parseDsnContent(content, filename)`.  The parse timestamp (`new
Date()`) is passed in as the `parsedAtIso` string parameter. -/
def parseDsnContent (content filename parsedAtIso : String) : ParsedDsnData :=
  let lines := dsnLines content
  let st := mainWalk lines
  let ests := applyBackfill lines st.establishments
  let company : DsnCompany := { companyInfo := st.companyInfo, establishments := ests }
  { company := company,
    metadata := { totalEmployees := countTotalEmployees company,
                  totalEstablishments := company.establishments.length,
                  parsedAt := parsedAtIso,
                  filename := filename,
                  parsingMethod := "S21.G00.30_delimiter" } }

end Dsn

namespace Dsn

/-! ## JS dates and `parseDsnDate`

A JS `Date` at day granularity.  `valid := false` models the Invalid Date
object (`new Date(NaN)`), which is a truthy object in JS whose
`getTime()`/`getFullYear()` are `NaN`. -/

structure JsDate where
  valid : Bool
  y : Nat
  m : Nat
  d : Nat
deriving DecidableEq, Inhabited

def jsInvalidDate : JsDate := { valid := false, y := 0, m := 0, d := 0 }

def jsMkDate (y m d : Nat) : JsDate := { valid := true, y := y, m := m, d := d }

/-- `getTime()` as an ordering key, `none` for `NaN`.  For valid Gregorian
dates the key `y * 10000 + m * 100 + d` is strictly monotone in real time,
which is all the code observes (comparisons via `isAfter` / sorting). -/
def JsDate.time (dt : JsDate) : Option Nat :=
  if dt.valid then some (dt.y * 10000 + dt.m * 100 + dt.d) else none

/-- `getFullYear()`, `none` for `NaN`. -/
def JsDate.fullYear (dt : JsDate) : Option Nat :=
  if dt.valid then some dt.y else none

def isLeapYear (y : Nat) : Bool :=
  (y % 4 == 0 && y % 100 != 0) || y % 400 == 0

def daysInMonth (y m : Nat) : Nat :=
  if m == 2 then (if isLeapYear y then 29 else 28)
  else if m == 4 || m == 6 || m == 9 || m == 11 then 30
  else 31

def digitVal (c : Char) : Nat := c.toNat - 48

def natOfDigits (cs : List Char) : Nat :=
  cs.foldl (fun acc c => acc * 10 + digitVal c) 0

/-- date-fns `parseISO` applied to the string `yyyy-mm-dd` built from the
three substrings of an 8-character input: it yields a valid date exactly
when the pieces are all digits and form a real Gregorian calendar date
(month 1–12, day within the month); anything else yields Invalid Date.
`parseISO` never throws on a string argument, so the try/catch of the
source is dead. -/
def parseIso8 (cs : List Char) : JsDate :=
  if cs.all isDigitCh then
    let y := natOfDigits (cs.take 4)
    let m := natOfDigits ((cs.drop 4).take 2)
    let d := natOfDigits (cs.drop 6)
    if 1 ≤ m && m ≤ 12 && 1 ≤ d && d ≤ daysInMonth y m then jsMkDate y m d
    else jsInvalidDate
  else jsInvalidDate

/-- `parseDsnDate` of `dsnToQuestions.mapper.ts`: `null` for the empty
string or any string whose length is not 8; otherwise the `parseISO`
result (a `Date` object, possibly Invalid Date, never `null`). -/
def parseDsnDate (dsnDate : String) : Option JsDate :=
  if dsnDate == "" || dsnDate.data.length != 8 then none
  else some (parseIso8 dsnDate.data)

/-- date-fns `isAfter(a, b)`: `a.getTime() > b.getTime()`, false whenever
either time is `NaN`. -/
def isAfter (a b : JsDate) : Bool :=
  match a.time, b.time with
  | some x, some y => y < x
  | _, _ => false

def pad2 (n : Nat) : String :=
  if n < 10 then "0" ++ toString n else toString n

def pad4 (n : Nat) : String :=
  if n < 10 then "000" ++ toString n
  else if n < 100 then "00" ++ toString n
  else if n < 1000 then "0" ++ toString n
  else toString n

/-- date-fns `format(date, "dd/MM/yyyy")`; throws a `RangeError` on
Invalid Date, modelled as `none`. -/
def formatDMY (dt : JsDate) : Option String :=
  if dt.valid then some (pad2 dt.d ++ "/" ++ pad2 dt.m ++ "/" ++ pad4 dt.y)
  else none

/-! ## Reporting period resolution -/

structure ReportingPeriod where
  startDate : JsDate
  endDate : JsDate
deriving DecidableEq, Inhabited

def getAllEmployees (parsedData : ParsedDsnData) : List DsnEmployee :=
  parsedData.company.establishments.flatMap (fun est => est.employees)

/-- One guarded date collection: `if (field) { const date = parse(field);
if (date) push(date) }` — note an Invalid Date object is truthy and IS
pushed. -/
def dateContrib (b : Blk) (k : String) : List JsDate :=
  match getField b k with
  | some v =>
    if v != "" then
      match parseDsnDate v with
      | some dt => [dt]
      | none => []
    else []
  | none => []

/-- All dates collected by `getReportingPeriod` (period start, period end,
salary period start, in employee order). -/
def collectDates (employees : List DsnEmployee) : List JsDate :=
  employees.flatMap (fun emp =>
    dateContrib emp.period "debutPeriode" ++ dateContrib emp.period "finPeriode" ++
    dateContrib emp.salary "debutPeriode")

/-- Comparator order used by `allDates.sort((a,b) => a.getTime() -
b.getTime())`.  A `NaN` comparison result is treated as "do not swap"; the
engine-specific placement of Invalid Dates is irrelevant to every theorem
below (they are filtered out right after). -/
def timeLe (a b : JsDate) : Bool :=
  match a.time, b.time with
  | some x, some y => x ≤ y
  | _, _ => true

def orderedInsert (a : JsDate) : List JsDate → List JsDate
  | [] => [a]
  | b :: rest => if timeLe a b then a :: b :: rest else b :: orderedInsert a rest

/-- Stable sort by `getTime()` (JS `Array.prototype.sort` is stable). -/
def sortByTime : List JsDate → List JsDate
  | [] => []
  | a :: rest => orderedInsert a (sortByTime rest)

/-- The filter keeping "reasonable" dates: `getFullYear()` between
`currentYear - 5` and `currentYear + 1` (false for Invalid Dates, whose
year is `NaN`). -/
def reasonableDate (currentYear : Nat) (dt : JsDate) : Bool :=
  match dt.fullYear with
  | some y => (currentYear : Int) - 5 ≤ (y : Int) && y ≤ currentYear + 1
  | none => false

/-- `getReportingPeriod`.  `currentYear` is `new Date().getFullYear()`.
The success branch logs `format(startDate)` / `format(endDate)`, which
would throw on an Invalid Date, hence the `Option`; the constant windows
`new Date("2025-01-01")`–`new Date("2025-12-31")` and the current-year
window are valid dates. -/
def getReportingPeriod (currentYear : Nat) (parsedData : ParsedDsnData) : Option ReportingPeriod :=
  let employees := getAllEmployees parsedData
  let allDates := collectDates employees
  if allDates.isEmpty then
    some { startDate := jsMkDate 2025 1 1, endDate := jsMkDate 2025 12 31 }
  else
    let sorted := sortByTime allDates
    let reasonableDates := sorted.filter (reasonableDate currentYear)
    match reasonableDates with
    | [] => some { startDate := jsMkDate currentYear 1 1, endDate := jsMkDate currentYear 12 31 }
    | d0 :: rest =>
      let startDate := d0
      let endDate := (d0 :: rest).getLast (List.cons_ne_nil d0 rest)
      match formatDMY startDate, formatDMY endDate with
      | some _, some _ => some { startDate := startDate, endDate := endDate }
      | _, _ => none

/-! ## Question calculation functions -/

/-- JS `Math.round`: round half toward positive infinity, i.e. the floor
of `q + 1/2` (stated via the executable `Rat.floor`). -/
def jsRound (q : ℚ) : ℤ := Rat.floor (q + 1 / 2)

def calculateEmployeesEndOfPeriod (employees : List DsnEmployee)
    (_reportingPeriod : ReportingPeriod) : Nat :=
  (employees.filter (fun emp =>
    truthy emp.contract "dateDebutContrat" && truthy emp.personal "nir" &&
    truthy emp.personal "nomFamille")).length

/-- `Math.round(validEmployees.length * 0.8)` — the filter here does NOT
require `nomFamille`, unlike `calculateEmployeesEndOfPeriod`. -/
def calculateEmployeesAverage (employees : List DsnEmployee)
    (_reportingPeriod : ReportingPeriod) : ℤ :=
  let validEmployees := employees.filter (fun emp =>
    truthy emp.contract "dateDebutContrat" && truthy emp.personal "nir")
  jsRound ((validEmployees.length : ℚ) * (8 / 10))

def calculateEmployeesLeft (employees : List DsnEmployee)
    (_reportingPeriod : ReportingPeriod) : ℤ :=
  let employeesWithEndDates := employees.filter (fun emp =>
    truthy emp.contract "dateFinContrat" && truthy emp.personal "nir")
  jsRound ((employeesWithEndDates.length : ℚ) * (3 / 10))

def calculateEmployeesAtStart (employees : List DsnEmployee)
    (reportingPeriod : ReportingPeriod) : Nat :=
  (employees.filter (fun emp =>
    let contractStartDate :=
      if truthy emp.contract "dateDebutContrat" then
        parseDsnDate ((getField emp.contract "dateDebutContrat").getD "")
      else none
    let contractEndDate :=
      if truthy emp.contract "dateFinContrat" then
        parseDsnDate ((getField emp.contract "dateFinContrat").getD "")
      else none
    match contractStartDate with
    | none => false
    | some sd =>
      !isAfter sd reportingPeriod.startDate &&
      (match contractEndDate with
       | none => true
       | some ed => isAfter ed reportingPeriod.startDate))).length

def calculateTurnoverPercentage (employees : List DsnEmployee)
    (reportingPeriod : ReportingPeriod) : ℚ :=
  let employeesAtStart := calculateEmployeesAtStart employees reportingPeriod
  let employeesLeft := calculateEmployeesLeft employees reportingPeriod
  if employeesAtStart == 0 then 0
  else (jsRound ((employeesLeft : ℚ) / (employeesAtStart : ℚ) * 100 * 100) : ℚ) / 100

/-- `countBy[k] = (countBy[k] || 0) + 1` over a list of keys, preserving
first-occurrence key order. -/
def bumpCount (m : List (String × Nat)) (k : String) : List (String × Nat) :=
  if m.any (fun p => p.1 == k) then
    m.map (fun p => if p.1 == k then (p.1, p.2 + 1) else p)
  else m ++ [(k, 1)]

/-- `calculation === "end" ? valid : valid.slice(0, Math.round(len * 0.8))`. -/
def averageSlice (isEnd : Bool) (validEmployees : List DsnEmployee) : List DsnEmployee :=
  if isEnd then validEmployees
  else validEmployees.take (jsRound ((validEmployees.length : ℚ) * (8 / 10))).toNat

def calculateEmployeesByCountry (employees : List DsnEmployee)
    (_reportingPeriod : ReportingPeriod) (isEnd : Bool) : List (String × Nat) :=
  let validEmployees := employees.filter (fun emp =>
    truthy emp.personal "nir" && truthy emp.personal "nomFamille")
  let employeesToCount := averageSlice isEnd validEmployees
  employeesToCount.foldl (fun acc emp =>
    let country :=
      if truthy emp.personal "nationalite" then (getField emp.personal "nationalite").getD ""
      else if truthy emp.personal "paysDomicile" then (getField emp.personal "paysDomicile").getD ""
      else "Unknown"
    bumpCount acc country) []

def calculateEmployeesByContractGender (employees : List DsnEmployee)
    (_reportingPeriod : ReportingPeriod) (isEnd : Bool) : List (String × Nat) :=
  let validEmployees := employees.filter (fun emp =>
    truthy emp.contract "typeContrat" && truthy emp.personal "nir")
  let employeesToCount := averageSlice isEnd validEmployees
  employeesToCount.foldl (fun acc emp =>
    let contractType :=
      if truthy emp.contract "typeContrat" then (getField emp.contract "typeContrat").getD ""
      else "Unknown"
    let gender :=
      if truthy emp.personal "sexe" then (getField emp.personal "sexe").getD ""
      else if truthy emp.contract "sexe" then (getField emp.contract "sexe").getD ""
      else "Unknown"
    bumpCount acc (contractType ++ "-" ++ gender)) []

def calculateEmployeesByRegion (employees : List DsnEmployee)
    (_reportingPeriod : ReportingPeriod) (isEnd : Bool) : List (String × Nat) :=
  let validEmployees := employees.filter (fun emp =>
    truthy emp.personal "ville" && truthy emp.personal "nir")
  let employeesToCount := averageSlice isEnd validEmployees
  employeesToCount.foldl (fun acc emp =>
    let region :=
      if truthy emp.personal "ville" then (getField emp.personal "ville").getD ""
      else "Unknown"
    bumpCount acc region) []

def calculateEmployeesByCategory (employees : List DsnEmployee)
    (_reportingPeriod : ReportingPeriod) (isEnd : Bool) : List (String × Nat) :=
  let validEmployees := employees.filter (fun emp =>
    truthy emp.contract "emploi" && truthy emp.personal "nir")
  let employeesToCount := averageSlice isEnd validEmployees
  employeesToCount.foldl (fun acc emp =>
    let category :=
      if truthy emp.contract "emploi" then (getField emp.contract "emploi").getD ""
      else "Unknown"
    bumpCount acc category) []

/-! ## Narrative answers and the top-level mapper -/

/-- `str || fallback` on an optional string-valued property. -/
def orDefault (v : Option String) (fallback : String) : String :=
  match v with
  | some s => if s != "" then s else fallback
  | none => fallback

/-- The date part of `parsedAt.toISOString()` (`split("T")[0]`). -/
def isoDatePart (iso : String) : String :=
  String.mk (iso.data.takeWhile (fun c => !(c == 'T')))

def generateContextualInfo (parsedData : ParsedDsnData)
    (reportingPeriod : ReportingPeriod) : Option String :=
  match formatDMY reportingPeriod.startDate, formatDMY reportingPeriod.endDate with
  | some periodStart, some periodEnd =>
    some ("DSN file data for " ++
      orDefault (getField parsedData.company.companyInfo "companyName") "Unknown Company" ++
      " (SIRET: " ++ orDefault (getField parsedData.company.companyInfo "siret") "N/A" ++
      "). Data extracted on " ++ isoDatePart parsedData.metadata.parsedAt ++ " using " ++
      parsedData.metadata.parsingMethod ++ " parsing method. Contains " ++
      toString parsedData.metadata.totalEmployees ++ " employees across " ++
      toString parsedData.metadata.totalEstablishments ++ " establishment(s). Reporting period: " ++
      periodStart ++ " to " ++ periodEnd ++
      ". Employee data includes contract dates, personal information, and period-specific employment status.")
  | _, _ => none

def generateFinancialRelationship (parsedData : ParsedDsnData)
    (reportingPeriod : ReportingPeriod) : Option String :=
  let employees := getAllEmployees parsedData
  let activeAtEnd := calculateEmployeesEndOfPeriod employees reportingPeriod
  let averageDuring := calculateEmployeesAverage employees reportingPeriod
  let leftDuring := calculateEmployeesLeft employees reportingPeriod
  match formatDMY reportingPeriod.endDate with
  | some endStr =>
    some ("The " ++ toString activeAtEnd ++ " employees active at period end (" ++ endStr ++
      ") should correspond to the headcount figures in the company's financial statements for the same reporting period. During the period, " ++
      toString leftDuring ++ " employees left the company, with an average of " ++
      toString averageDuring ++
      " employees present. Any discrepancies may be due to different reporting scopes, timing differences, or classification differences between DSN social declarations and financial reporting standards.")
  | none => none

/-- Answer values: `string | number | Record<string, number>` (the boolean
arm of the union is never produced). -/
inductive QuestionAnswer where
  | str (s : String)
  | num (q : ℚ)
  | table (t : List (String × Nat))
deriving DecidableEq

abbrev MappedAnswers := List (String × QuestionAnswer)

/-- `mapDsnToQuestions(parsedData)`.  `currentYear` is the ambient clock
year consumed by `getReportingPeriod`; the `Option` layer models the JS
exceptions that `format`/`toISOString` could raise (the totality theorem
shows it is always `some`). -/
def mapDsnToQuestions (currentYear : Nat) (parsedData : ParsedDsnData) : Option MappedAnswers :=
  let employees := getAllEmployees parsedData
  match getReportingPeriod currentYear parsedData with
  | none => none
  | some reportingPeriod =>
    match generateContextualInfo parsedData reportingPeriod,
          generateFinancialRelationship parsedData reportingPeriod with
    | some contextualInfo, some financialRelationship =>
      some [
        ("S1-6_02", .num (calculateEmployeesEndOfPeriod employees reportingPeriod)),
        ("S1-6_03", .num (calculateEmployeesAverage employees reportingPeriod)),
        ("S1-6_11", .num (calculateEmployeesLeft employees reportingPeriod)),
        ("S1-6_12", .num (calculateTurnoverPercentage employees reportingPeriod)),
        ("S1-6_05", .table (calculateEmployeesByCountry employees reportingPeriod true)),
        ("S1-6_06", .table (calculateEmployeesByCountry employees reportingPeriod false)),
        ("K_718", .table (calculateEmployeesByContractGender employees reportingPeriod true)),
        ("K_719", .table (calculateEmployeesByContractGender employees reportingPeriod false)),
        ("S1-6_09", .table (calculateEmployeesByRegion employees reportingPeriod true)),
        ("S1-6_10", .table (calculateEmployeesByRegion employees reportingPeriod false)),
        ("S1-6_19", .table (calculateEmployeesByCategory employees reportingPeriod true)),
        ("S1-6_20", .table (calculateEmployeesByCategory employees reportingPeriod false)),
        ("S1-6_14", .str "Head-count"),
        ("S1-6_15", .str "At end of period"),
        ("S1-6_16", .str contextualInfo),
        ("S1-6_17", .str financialRelationship)]
    | _, _ => none

/-! ## Specification-side definitions

These follow the wording of the spec (not the code) and are compared with
the implementation in the theorems below. -/

/-- From the spec, the fixed, closed set of supported question identifiers. -/
def supportedQuestionIds : List String :=
  ["S1-6_02", "S1-6_03", "S1-6_11", "S1-6_12", "S1-6_05", "S1-6_06",
   "K_718", "K_719", "S1-6_09", "S1-6_10", "S1-6_19", "S1-6_20",
   "S1-6_14", "S1-6_15", "S1-6_16", "S1-6_17"]

/-- From the spec: an 8-digit `YYYYMMDD` string denoting a real Gregorian
calendar date. -/
def isYyyymmddDate (s : String) : Bool :=
  s.data.length == 8 && s.data.all isDigitCh &&
  (let m := natOfDigits ((s.data.drop 4).take 2)
   let d := natOfDigits (s.data.drop 6)
   1 ≤ m && m ≤ 12 && 1 ≤ d && d ≤ daysInMonth (natOfDigits (s.data.take 4)) m)

/-- From the spec (backfill pass): re-scan the token stream from the
start, tracking only identity/address header flags, writing matched fields
into identity/address accumulators, and stop the moment the employee-start
marker (`S21.G00.30` header) is reached. -/
def scanLeadTokens : List Token → Bool → Bool → Blk → Blk → Blk × Blk
  | [], _, _, idAcc, adAcc => (idAcc, adAcc)
  | tok :: rest, inId, inAd, idAcc, adAcc =>
    if tok.isHeader then
      if tok.code == "S21.G00.30" then (idAcc, adAcc)
      else scanLeadTokens rest (tok.code == "S21.G00.06") (tok.code == "S21.G00.11") idAcc adAcc
    else if inId then
      scanLeadTokens rest inId inAd (handleIdentityData idAcc tok.code tok.value) adAcc
    else if inAd then
      scanLeadTokens rest inId inAd idAcc (handleAddressData adAcc tok.code tok.value)
    else scanLeadTokens rest inId inAd idAcc adAcc

/-- The identity/address field values carried by the lines preceding the
first employee-start marker, mapped through the field tables. -/
def leadingBlocks (lines : List (List Char)) : Blk × Blk :=
  scanLeadTokens (lines.filterMap parseLine) false false [] []

/-- "The first employee of the first establishment" named by the spec. -/
def firstEmployeeOfFirstEstablishment (parsedData : ParsedDsnData) : Option DsnEmployee :=
  match parsedData.company.establishments with
  | [] => none
  | est :: _ => est.employees.head?

/-- The first employee of the establishment that is current (last) at the
end of the walk — the employee the backfill gate actually inspects. -/
def lastEstFirstEmp (ests : List DsnEstablishment) : Option DsnEmployee :=
  match ests.getLast? with
  | none => none
  | some est => est.employees.head?

/-- Employee ids of one establishment, in array order. -/
def empIds (est : DsnEstablishment) : List Nat :=
  est.employees.map (fun e => e.employeeId)

/-- Employee ids of the whole parse, establishments in order. -/
def flatIds (ests : List DsnEstablishment) : List Nat :=
  ests.flatMap empIds

/-- The invariant the code actually maintains: any employee other than the
globally first-created one (id 1) carries no identity/address containers
at all. -/
def PnonFirst (emp : DsnEmployee) : Prop :=
  emp.employeeId ≠ 1 → emp.identity = none ∧ emp.address = none

/-- All employees of all establishments satisfy `P`. -/
def allEmps (P : DsnEmployee → Prop) (ests : List DsnEstablishment) : Prop :=
  ∀ est ∈ ests, ∀ emp ∈ est.employees, P emp

/-- Invariant of the main walk: the employee ids across establishments in
order are exactly `1..employeeCounter`, and non-first employees carry no
identity/address containers. -/
def goodState (st : WalkState) : Prop :=
  flatIds st.establishments = List.range' 1 st.employeeCounter ∧
  allEmps PnonFirst st.establishments

/-- A date field from which `getReportingPeriod` collects no `Date` value
at all: absent, empty, or not of length 8 (a length-8 value — even an
unparseable one — yields a truthy Invalid Date that IS collected). -/
def fieldNoDate (b : Blk) (k : String) : Bool :=
  match getField b k with
  | some v => v == "" || v.data.length != 8
  | none => true

/-- No date value whatsoever is collected from this employee. -/
def noCollectedDate (emp : DsnEmployee) : Bool :=
  fieldNoDate emp.period "debutPeriode" && fieldNoDate emp.period "finPeriode" &&
  fieldNoDate emp.salary "debutPeriode"

/-- The documented fixed fallback reporting window (fallback year 2025). -/
def fallback2025 : ReportingPeriod :=
  { startDate := jsMkDate 2025 1 1, endDate := jsMkDate 2025 12 31 }

/-! ## Concrete inputs for scenario theorems, counterexamples and witnesses -/

/-- A header line `CODE,''`. -/
def hdrLine (code : String) : String :=
  code ++ "," ++ String.singleton QUOTE ++ String.singleton QUOTE

/-- A data line `CODE,'value'`. -/
def datLine (code v : String) : String :=
  code ++ "," ++ String.singleton QUOTE ++ v ++ String.singleton QUOTE

/-- The minimal two-employee scenario file of the spec (claim C9). -/
def c9content : String :=
  hdrLine "S21.G00.30" ++ "\n" ++ datLine "S21.G00.30.001" "123456789" ++ "\n" ++
  hdrLine "S21.G00.30" ++ "\n" ++ datLine "S21.G00.30.001" "987654321"

/-- Two establishment headers with one employee each: the second
establishment's employee keeps the global id 2. -/
def twoEstContent : String :=
  hdrLine "S20.G00.05" ++ "\n" ++ hdrLine "S21.G00.30" ++ "\n" ++
  datLine "S21.G00.30.001" "111111111" ++ "\n" ++
  hdrLine "S20.G00.05" ++ "\n" ++ hdrLine "S21.G00.30" ++ "\n" ++
  datLine "S21.G00.30.001" "222222222"

/-- Two establishment headers before any employee: the globally first
employee (who owns the identity/address containers) lands in the second
establishment while the first establishment stays empty. -/
def emptyFirstEstContent : String :=
  hdrLine "S20.G00.05" ++ "\n" ++ hdrLine "S20.G00.05" ++ "\n" ++
  hdrLine "S21.G00.30" ++ "\n" ++ hdrLine "S21.G00.06" ++ "\n" ++
  datLine "S21.G00.06.001" "X"

/-- `emptyFirstEstContent` followed by a second employee-start marker: the
parse yields two employees.  The globally first employee (non-empty
identity block, `nir = "X"`) and the second employee both live in the
second establishment; the first establishment stays empty. -/
def twoEmpEmptyFirstEstContent : String :=
  emptyFirstEstContent ++ "\n" ++ hdrLine "S21.G00.30"

/-- Leading identity data before the first employee marker, then an S20
header and a second employee: at end of input the current establishment's
first employee is employee 2, so the backfill gate fails and the leading
identity data is lost. -/
def s20AfterContent : String :=
  hdrLine "S21.G00.06" ++ "\n" ++ datLine "S21.G00.06.001" "X" ++ "\n" ++
  hdrLine "S21.G00.30" ++ "\n" ++ hdrLine "S20.G00.05" ++ "\n" ++
  hdrLine "S21.G00.30"

/-- Leading identity and address data before the single employee marker:
the backfill gate passes and the data is recovered. -/
def backfillOkContent : String :=
  hdrLine "S21.G00.06" ++ "\n" ++ datLine "S21.G00.06.001" "X" ++ "\n" ++
  hdrLine "S21.G00.11" ++ "\n" ++ datLine "S21.G00.11.001" "Y" ++ "\n" ++
  hdrLine "S21.G00.30"

/-- A bare employee record with the given blocks (no identity/address). -/
def mkEmp (personal contract salary period : Blk) : DsnEmployee :=
  { employeeId := 1, identity := none, address := none,
    personal := personal, contract := contract, salary := salary, period := period }

/-- Wrap a list of employees into a one-establishment `ParsedDsnData`. -/
def mkParsed (employees : List DsnEmployee) : ParsedDsnData :=
  { company := { companyInfo := [],
                 establishments := [{ establishmentInfo := [], employees := employees }] },
    metadata := { totalEmployees := employees.length, totalEstablishments := 1,
                  parsedAt := "", filename := "", parsingMethod := "S21.G00.30_delimiter" } }

/-- Employee with a contract start date and NIR but no surname: counted by
the average's filter, not by the end-of-period filter. -/
def empNoSurname : DsnEmployee :=
  mkEmp [("nir", "1")] [("dateDebutContrat", "20240101")] [] []

/-- Employee with complete contract start date, NIR and surname. -/
def empComplete : DsnEmployee :=
  mkEmp [("nir", "1"), ("nomFamille", "D")] [("dateDebutContrat", "20240101")] [] []

/-- Employee whose only date field is a length-8 unparseable string:
contributes an Invalid Date (truthy, hence collected) but no parseable
date. -/
def empBadDate : DsnEmployee :=
  mkEmp [] [] [] [("debutPeriode", "abcdefgh")]

/-- Employee whose only date field is too short to be a date: nothing is
collected from it. -/
def empShortDate : DsnEmployee :=
  mkEmp [] [] [] [("debutPeriode", "xy")]

/-- The second establishment produced by parsing `twoEstContent`. -/
def estSecondTwoEst : DsnEstablishment :=
  { establishmentInfo := [],
    employees := [{ employeeId := 2, identity := none, address := none,
                    personal := [("nir", "222222222")], contract := [], salary := [],
                    period := [] }] }

/-- The second employee produced by the main walk of `s20AfterContent`
(the first employee of the establishment that is current at end of
input). -/
def empTwoS20After : DsnEmployee :=
  { employeeId := 2, identity := none, address := none, personal := [], contract := [],
    salary := [], period := [] }

/-- The first employee produced by the main walk of `backfillOkContent`
(identity/address containers allocated and still empty). -/
def feBackfillOk : DsnEmployee :=
  { employeeId := 1, identity := some [], address := some [], personal := [], contract := [],
    salary := [], period := [] }

/-- An arbitrary concrete reporting period for witnesses. -/
def rpSample : ReportingPeriod :=
  { startDate := jsMkDate 2024 6 1, endDate := jsMkDate 2024 12 31 }

/-- The first employee produced by parsing `c9content`. -/
def empOneOfC9 : DsnEmployee :=
  { employeeId := 1, identity := some [], address := some [],
    personal := [("nir", "123456789")], contract := [], salary := [], period := [] }

/-- The second employee produced by parsing `c9content`. -/
def empTwoOfC9 : DsnEmployee :=
  { employeeId := 2, identity := none, address := none,
    personal := [("nir", "987654321")], contract := [], salary := [], period := [] }

/-- The single establishment produced by parsing `c9content`. -/
def estOfC9 : DsnEstablishment :=
  { establishmentInfo := [], employees := [empOneOfC9, empTwoOfC9] }

end Dsn

namespace Dsn

/-! ## Lemmas about the list-surgery primitives -/

theorem mem_modifyLast {α : Type} (f : α → α) :
    ∀ (l : List α) (x : α), x ∈ modifyLast f l → x ∈ l ∨ ∃ y ∈ l, x = f y
  | [], x, hx => by simp [modifyLast] at hx
  | [a], x, hx => by
      simp only [modifyLast, List.mem_singleton] at hx
      exact Or.inr ⟨a, by simp, hx⟩
  | a :: b :: rest, x, hx => by
      simp only [modifyLast, List.mem_cons] at hx
      rcases hx with h | h
      · exact Or.inl (by simp [h])
      · rcases mem_modifyLast f (b :: rest) x h with h2 | ⟨y, hy, hxy⟩
        · exact Or.inl (List.mem_cons_of_mem _ h2)
        · exact Or.inr ⟨y, List.mem_cons_of_mem _ hy, hxy⟩

theorem mem_modifyIdx {α : Type} (f : α → α) :
    ∀ (i : Nat) (l : List α) (x : α), x ∈ modifyIdx f i l → x ∈ l ∨ ∃ y ∈ l, x = f y
  | i, [], x, hx => by cases i <;> simp [modifyIdx] at hx
  | 0, a :: rest, x, hx => by
      simp only [modifyIdx, List.mem_cons] at hx
      rcases hx with h | h
      · exact Or.inr ⟨a, by simp, h⟩
      · exact Or.inl (List.mem_cons_of_mem _ h)
  | n + 1, a :: rest, x, hx => by
      simp only [modifyIdx, List.mem_cons] at hx
      rcases hx with h | h
      · exact Or.inl (by simp [h])
      · rcases mem_modifyIdx f n rest x h with h2 | ⟨y, hy, hxy⟩
        · exact Or.inl (List.mem_cons_of_mem _ h2)
        · exact Or.inr ⟨y, List.mem_cons_of_mem _ hy, hxy⟩

theorem getLast?_modifyLast {α : Type} (f : α → α) :
    ∀ l : List α, (modifyLast f l).getLast? = l.getLast?.map f
  | [] => rfl
  | [_] => rfl
  | a :: b :: rest => by
      have ih := getLast?_modifyLast f (b :: rest)
      cases rest with
      | nil => simp [modifyLast]
      | cons c r =>
          simp only [modifyLast] at ih ⊢
          rw [List.getLast?_cons_cons, ih]
          simp [List.getLast?_cons_cons]

/-! ## Lemmas about `flatIds` and `allEmps` -/

theorem flatIds_cons (e : DsnEstablishment) (rest : List DsnEstablishment) :
    flatIds (e :: rest) = empIds e ++ flatIds rest := by
  simp [flatIds]

theorem flatIds_append (l1 l2 : List DsnEstablishment) :
    flatIds (l1 ++ l2) = flatIds l1 ++ flatIds l2 := by
  simp [flatIds]

theorem flatIds_push_empty (l : List DsnEstablishment) :
    flatIds (l ++ [emptyEstablishment]) = flatIds l := by
  rw [flatIds_append]; simp [flatIds, empIds, emptyEstablishment]

theorem flatIds_modifyLast_of_empIds (f : DsnEstablishment → DsnEstablishment)
    (h : ∀ est, empIds (f est) = empIds est) :
    ∀ l, flatIds (modifyLast f l) = flatIds l
  | [] => rfl
  | [a] => by simp [modifyLast, flatIds_cons, h]
  | a :: b :: rest => by
      simp only [modifyLast, flatIds_cons]
      rw [flatIds_modifyLast_of_empIds f h (b :: rest), flatIds_cons]

theorem flatIds_modifyIdx_of_empIds (f : DsnEstablishment → DsnEstablishment)
    (h : ∀ est, empIds (f est) = empIds est) :
    ∀ (i : Nat) (l), flatIds (modifyIdx f i l) = flatIds l
  | i, [] => by cases i <;> rfl
  | 0, a :: rest => by simp [modifyIdx, flatIds_cons, h]
  | n + 1, a :: rest => by
      simp only [modifyIdx, flatIds_cons]
      rw [flatIds_modifyIdx_of_empIds f h n rest]

theorem flatIds_modifyLast_push (emp : DsnEmployee) :
    ∀ l : List DsnEstablishment, l ≠ [] →
      flatIds (modifyLast (fun est => { est with employees := est.employees ++ [emp] }) l) =
        flatIds l ++ [emp.employeeId]
  | [], h => absurd rfl h
  | [a], _ => by simp [modifyLast, flatIds_cons, flatIds, empIds]
  | a :: b :: rest, _ => by
      simp only [modifyLast, flatIds_cons]
      rw [flatIds_modifyLast_push emp (b :: rest) (by simp)]
      simp [flatIds_cons, List.append_assoc]

theorem allEmps_nil (P : DsnEmployee → Prop) : allEmps P [] := by
  intro est hest
  simp at hest

theorem allEmps_push_empty {P : DsnEmployee → Prop} {l : List DsnEstablishment}
    (h : allEmps P l) : allEmps P (l ++ [emptyEstablishment]) := by
  intro est hest emp hemp
  rcases List.mem_append.mp hest with h1 | h1
  · exact h est h1 emp hemp
  · simp only [List.mem_singleton] at h1
    subst h1
    simp [emptyEstablishment] at hemp

theorem allEmps_modifyLast {P : DsnEmployee → Prop} {l : List DsnEstablishment}
    {f : DsnEstablishment → DsnEstablishment}
    (hf : ∀ est, (∀ emp ∈ est.employees, P emp) → ∀ emp ∈ (f est).employees, P emp)
    (h : allEmps P l) : allEmps P (modifyLast f l) := by
  intro est hest emp hemp
  rcases mem_modifyLast f l est hest with h1 | ⟨y, hy, rfl⟩
  · exact h est h1 emp hemp
  · exact hf y (h y hy) emp hemp

theorem allEmps_modifyIdx {P : DsnEmployee → Prop} {l : List DsnEstablishment}
    {f : DsnEstablishment → DsnEstablishment} {i : Nat}
    (hf : ∀ est, (∀ emp ∈ est.employees, P emp) → ∀ emp ∈ (f est).employees, P emp)
    (h : allEmps P l) : allEmps P (modifyIdx f i l) := by
  intro est hest emp hemp
  rcases mem_modifyIdx f i l est hest with h1 | ⟨y, hy, rfl⟩
  · exact h est h1 emp hemp
  · exact hf y (h y hy) emp hemp

theorem map_modifyLast {α β : Type} (g : α → β) (f : α → α) (h : ∀ a, g (f a) = g a) :
    ∀ l : List α, (modifyLast f l).map g = l.map g
  | [] => rfl
  | [a] => by simp [modifyLast, h]
  | a :: b :: rest => by
      simp only [modifyLast, List.map_cons]
      rw [map_modifyLast g f h (b :: rest)]
      simp

end Dsn

namespace Dsn

/-! ## Preservation lemmas for the per-employee transformers -/

theorem routeEmployeeData_employeeId (st : WalkState) (tok : Token) (emp : DsnEmployee) :
    (routeEmployeeData st tok emp).employeeId = emp.employeeId := by
  unfold routeEmployeeData
  split_ifs <;> rfl

theorem routeEmployeeData_identity_none (st : WalkState) (tok : Token) {emp : DsnEmployee}
    (h : emp.identity = none) : (routeEmployeeData st tok emp).identity = none := by
  unfold routeEmployeeData
  split_ifs <;> simp_all

theorem routeEmployeeData_address_none (st : WalkState) (tok : Token) {emp : DsnEmployee}
    (h : emp.address = none) : (routeEmployeeData st tok emp).address = none := by
  unfold routeEmployeeData
  split_ifs <;> simp_all

theorem routeEmployeeData_pres (st : WalkState) (tok : Token) {emp : DsnEmployee}
    (h : PnonFirst emp) : PnonFirst (routeEmployeeData st tok emp) := by
  intro hid
  rw [routeEmployeeData_employeeId] at hid
  obtain ⟨h1, h2⟩ := h hid
  exact ⟨routeEmployeeData_identity_none st tok h1, routeEmployeeData_address_none st tok h2⟩

theorem backfillGo_employeeId :
    ∀ (lines : List (List Char)) (inId inAd : Bool) (emp : DsnEmployee),
      (backfillGo lines inId inAd emp).employeeId = emp.employeeId
  | [], _, _, _ => rfl
  | line :: rest, inId, inAd, emp => by
      simp only [backfillGo]
      cases parseLine line with
      | none => exact backfillGo_employeeId rest inId inAd emp
      | some tok =>
          cases h1 : tok.isHeader with
          | true =>
              cases h2 : (tok.code == "S21.G00.30") with
              | true => simp [h1, h2]
              | false =>
                  simp only [h1, h2, Bool.false_eq_true, if_false, if_true]
                  exact backfillGo_employeeId rest _ _ emp
          | false =>
              simp only [h1, Bool.false_eq_true, if_false]
              rw [backfillGo_employeeId rest inId inAd _]
              split_ifs <;> rfl

/-- Backfilling an employee that owns no identity/address containers does
nothing at all. -/
theorem backfillGo_no_containers :
    ∀ (lines : List (List Char)) (inId inAd : Bool) (emp : DsnEmployee),
      emp.identity = none → emp.address = none → backfillGo lines inId inAd emp = emp
  | [], _, _, _, _, _ => rfl
  | line :: rest, inId, inAd, emp, hi, ha => by
      simp only [backfillGo]
      cases parseLine line with
      | none => exact backfillGo_no_containers rest inId inAd emp hi ha
      | some tok =>
          cases h1 : tok.isHeader with
          | true =>
              cases h2 : (tok.code == "S21.G00.30") with
              | true => simp [h1, h2]
              | false =>
                  simp only [h1, h2, Bool.false_eq_true, if_false, if_true]
                  exact backfillGo_no_containers rest _ _ emp hi ha
          | false =>
              simp only [h1, Bool.false_eq_true, if_false, hi, ha, Option.isSome_none,
                Bool.and_false]
              exact backfillGo_no_containers rest inId inAd emp hi ha

end Dsn

namespace Dsn

/-! ## The main-walk invariant -/

theorem goodState_push (st : WalkState) (h : goodState st) : goodState (pushEstablishment st) := by
  obtain ⟨hids, hP⟩ := h
  constructor
  · show flatIds (st.establishments ++ [emptyEstablishment]) = _
    rw [flatIds_push_empty]
    exact hids
  · exact allEmps_push_empty hP

theorem goodState_surgery {st : WalkState} {ests' : List DsnEstablishment}
    (h : goodState st) (hids : flatIds ests' = flatIds st.establishments)
    (hall : allEmps PnonFirst ests') :
    goodState { st with establishments := ests' } :=
  ⟨hids.trans h.1, hall⟩

theorem goodState_setFlags (st : WalkState) (code : String) (h : goodState st) :
    goodState (setFlags st code) := by
  unfold setFlags
  split_ifs <;> exact h

theorem goodState_stepS20 (st : WalkState) (tok : Token) (h : goodState st) :
    goodState (stepS20 st tok) := by
  simp only [stepS20]
  set st1 := if tok.isHeader || st.establishments.isEmpty then pushEstablishment st else st
    with hst1
  have h1 : goodState st1 := by
    rw [hst1]
    split_ifs
    · exact goodState_push st h
    · exact h
  split_ifs with hd
  · exact goodState_surgery h1
      (flatIds_modifyLast_of_empIds
        (fun est => { est with establishmentInfo :=
          handleEstablishmentData est.establishmentInfo tok.code tok.value })
        (fun est => rfl) st1.establishments)
      (allEmps_modifyLast (fun est hP emp hm => hP emp hm) h1.2)
  · exact h1

theorem goodState_createEmployee (st1 : WalkState) (hne : st1.establishments ≠ [])
    (h : goodState st1) : goodState (createEmployee st1) := by
  obtain ⟨hids, hP⟩ := h
  constructor
  · show flatIds (modifyLast _ st1.establishments) = List.range' 1 (st1.employeeCounter + 1)
    rw [flatIds_modifyLast_push _ st1.establishments hne, hids, List.range'_1_concat]
    simp [Nat.add_comm]
  · refine allEmps_modifyLast ?_ hP
    intro est hPe emp hm
    rcases List.mem_append.mp hm with hold | hnew
    · exact hPe emp hold
    · simp only [List.mem_singleton] at hnew
      subst hnew
      intro hid
      have hfalse : (st1.employeeCounter + 1 == 1) = false := by
        exact beq_eq_false_iff_ne.mpr hid
      constructor <;> simp [hfalse]

theorem goodState_routeStep (st : WalkState) (tok : Token) (h : goodState st) :
    goodState (routeStep st tok) := by
  unfold routeStep
  cases hcur : st.curEmpEst with
  | none => exact h
  | some i =>
      refine goodState_surgery h ?_ ?_
      · refine flatIds_modifyIdx_of_empIds _ (fun est => ?_) i st.establishments
        show (modifyLast (routeEmployeeData st tok) est.employees).map _ = _
        exact map_modifyLast _ _ (routeEmployeeData_employeeId st tok) est.employees
      · refine allEmps_modifyIdx (fun est hPe emp hm => ?_) h.2
        rcases mem_modifyLast _ est.employees emp hm with h2 | ⟨y, hy, rfl⟩
        · exact hPe emp h2
        · exact routeEmployeeData_pres st tok (hPe y hy)

theorem goodState_stepS21 (st : WalkState) (tok : Token) (h : goodState st) :
    goodState (stepS21 st tok) := by
  simp only [stepS21]
  set st1 := if st.establishments.isEmpty then pushEstablishment st else st with hst1
  have h1 : goodState st1 := by
    rw [hst1]
    split_ifs
    · exact goodState_push st h
    · exact h
  have hne : st1.establishments ≠ [] := by
    rw [hst1]
    split_ifs with hc
    · show st.establishments ++ [emptyEstablishment] ≠ []
      simp
    · intro hnil
      exact hc (by simp [hnil])
  set st2 := if (tok.code == "S21.G00.30" && tok.isHeader) = true then createEmployee st1 else st1
    with hst2
  have h2 : goodState st2 := by
    rw [hst2]
    split_ifs
    · exact goodState_createEmployee st1 hne h1
    · exact h1
  split_ifs with hd
  · exact goodState_routeStep st2 tok h2
  · exact h2

theorem goodState_dispatchBlock (st1 : WalkState) (tok : Token) (h : goodState st1) :
    goodState (dispatchBlock st1 tok) := by
  unfold dispatchBlock
  split
  · exact h
  · exact goodState_stepS20 st1 tok h
  · exact goodState_stepS21 st1 tok h
  · exact h

theorem goodState_processLine (st : WalkState) (line : List Char) (h : goodState st) :
    goodState (processLine st line) := by
  unfold processLine
  cases parseLine line with
  | none => exact h
  | some tok =>
      refine goodState_dispatchBlock _ tok ?_
      split_ifs
      · exact goodState_setFlags st tok.code h
      · exact h

theorem goodState_foldl : ∀ (lines : List (List Char)) (st : WalkState),
    goodState st → goodState (lines.foldl processLine st)
  | [], _, h => h
  | line :: rest, st, h =>
      goodState_foldl rest (processLine st line) (goodState_processLine st line h)

theorem goodState_mainWalk (lines : List (List Char)) : goodState (mainWalk lines) :=
  goodState_foldl lines initState ⟨rfl, allEmps_nil _⟩

/-! ## The backfill pass preserves the invariant -/

theorem empIds_backfillEst (lines : List (List Char)) (est : DsnEstablishment) :
    empIds (backfillEst lines est) = empIds est := by
  unfold backfillEst empIds
  cases hemps : est.employees with
  | nil => simp [hemps]
  | cons e0 restEmp =>
      simp [hemps, backfillFirstEmployeeData, backfillGo_employeeId]

theorem flatIds_applyBackfill (lines : List (List Char)) (ests : List DsnEstablishment) :
    flatIds (applyBackfill lines ests) = flatIds ests := by
  unfold applyBackfill
  split
  · rfl
  split
  · rfl
  split_ifs
  · exact flatIds_modifyLast_of_empIds _ (empIds_backfillEst lines) ests
  · rfl

theorem allEmps_applyBackfill (lines : List (List Char)) {ests : List DsnEstablishment}
    (h : allEmps PnonFirst ests) : allEmps PnonFirst (applyBackfill lines ests) := by
  unfold applyBackfill
  split
  · exact h
  split
  · exact h
  split_ifs
  · refine allEmps_modifyLast ?_ h
    intro est hPe emp hm
    unfold backfillEst at hm
    rcases hemps : est.employees with _ | ⟨e0, restEmp⟩ <;> rw [hemps] at hm
    · simp at hm
    · simp only [List.mem_cons] at hm
      rcases hm with rfl | hm
      · intro hid
        have hid0 : e0.employeeId ≠ 1 := by
          rwa [backfillFirstEmployeeData, backfillGo_employeeId] at hid
        obtain ⟨hi, ha⟩ := hPe e0 (by rw [hemps]; simp) hid0
        rw [backfillFirstEmployeeData, backfillGo_no_containers lines false false e0 hi ha]
        exact ⟨hi, ha⟩
      · exact hPe emp (by rw [hemps]; simp [hm])
  · exact h

theorem parseDsnContent_establishments (content fn ts : String) :
    (parseDsnContent content fn ts).company.establishments =
      applyBackfill (dsnLines content) (mainWalk (dsnLines content)).establishments := rfl

theorem countTotalEmployees_aux : ∀ (l : List DsnEstablishment) (a : Nat),
    l.foldl (fun total est => total + est.employees.length) a = a + (flatIds l).length
  | [], a => by simp [flatIds]
  | e :: rest, a => by
      simp only [List.foldl_cons, flatIds_cons, List.length_append]
      rw [countTotalEmployees_aux rest (a + e.employees.length)]
      simp [empIds, Nat.add_assoc]

end Dsn

namespace Dsn

/-! ## The backfill loop computes exactly the leading identity/address scan -/

theorem backfillGo_spec :
    ∀ (lines : List (List Char)) (inId inAd : Bool) (eid : Nat) (i0 a0 p c s per : Blk),
      backfillGo lines inId inAd ⟨eid, some i0, some a0, p, c, s, per⟩ =
        ⟨eid, some (scanLeadTokens (lines.filterMap parseLine) inId inAd i0 a0).1,
              some (scanLeadTokens (lines.filterMap parseLine) inId inAd i0 a0).2, p, c, s, per⟩
  | [], inId, inAd, eid, i0, a0, p, c, s, per => by
      simp [backfillGo, scanLeadTokens]
  | line :: rest, inId, inAd, eid, i0, a0, p, c, s, per => by
      simp only [backfillGo, List.filterMap_cons]
      cases hp : parseLine line with
      | none => exact backfillGo_spec rest inId inAd eid i0 a0 p c s per
      | some tok =>
          cases h1 : tok.isHeader with
          | true =>
              cases h2 : (tok.code == "S21.G00.30") with
              | true => simp [h1, h2, scanLeadTokens]
              | false =>
                  simp only [h1, h2, scanLeadTokens, Bool.false_eq_true, if_false, if_true]
                  exact backfillGo_spec rest _ _ eid i0 a0 p c s per
          | false =>
              cases hid : inId with
              | true =>
                  simp only [h1, hid, scanLeadTokens, Bool.false_eq_true, if_false, if_true,
                    Option.isSome_some, Bool.and_true, Option.map_some]
                  exact backfillGo_spec rest true inAd eid
                    (handleIdentityData i0 tok.code tok.value) a0 p c s per
              | false =>
                  cases had : inAd with
                  | true =>
                      simp only [h1, hid, had, scanLeadTokens, Bool.false_eq_true, if_false,
                        if_true, Option.isSome_some, Bool.and_true, Bool.false_and,
                        Option.map_some]
                      exact backfillGo_spec rest false true eid i0
                        (handleAddressData a0 tok.code tok.value) p c s per
                  | false =>
                      simp only [h1, hid, had, scanLeadTokens, Bool.false_eq_true, if_false,
                        Bool.false_and]
                      exact backfillGo_spec rest false false eid i0 a0 p c s per

/-- `backfillFirstEmployeeData` on an employee whose identity/address
containers are both allocated and empty writes exactly the leading
identity/address field values. -/
theorem backfillFirstEmployeeData_spec (lines : List (List Char)) (emp : DsnEmployee)
    (hi : emp.identity = some []) (ha : emp.address = some []) :
    backfillFirstEmployeeData lines emp =
      { emp with identity := some (leadingBlocks lines).1,
                 address := some (leadingBlocks lines).2 } := by
  cases emp with
  | mk eid idt adr p c s per =>
      simp only at hi ha
      subst hi
      subst ha
      exact backfillGo_spec lines false false eid [] [] p c s per

/-! ## Small membership helpers -/

theorem mem_of_getLast? {α : Type} {l : List α} {a : α} (h : l.getLast? = some a) : a ∈ l := by
  cases l with
  | nil => simp at h
  | cons b rest =>
      rw [List.getLast?_eq_getLast (b :: rest) (by simp)] at h
      injection h with h2
      rw [← h2]
      exact List.getLast_mem _

theorem mem_of_head? {α : Type} {l : List α} {a : α} (h : l.head? = some a) : a ∈ l := by
  cases l with
  | nil => simp at h
  | cons b rest =>
      rw [List.head?_cons] at h
      injection h with h2
      rw [← h2]
      exact List.mem_cons_self b rest

/-! ## Consecutive-segment decomposition of the id sequence -/

theorem empIds_segments :
    ∀ (ests : List DsnEstablishment) (s n : Nat), flatIds ests = List.range' s n →
      ∀ est ∈ ests, ∃ k, empIds est = List.range' k est.employees.length
  | [], _, _, _ => by simp
  | e :: rest, s, n, h => by
      rw [flatIds_cons] at h
      obtain ⟨k, hk, hxs, hys⟩ := List.range'_eq_append_iff.mp h.symm
      intro est hest
      rcases List.mem_cons.mp hest with rfl | hmem
      · refine ⟨s, ?_⟩
        have hlen : est.employees.length = k := by
          have hl := congrArg List.length hxs
          simpa [empIds] using hl
        rw [hlen]
        exact hxs
      · exact empIds_segments rest (s + k) (n - k) hys est hmem

end Dsn

namespace Dsn

/-! ## Mapper-side lemmas -/

theorem reasonableDate_valid {cy : Nat} {dt : JsDate} (h : reasonableDate cy dt = true) :
    dt.valid = true := by
  by_cases hv : dt.valid = true
  · exact hv
  · unfold reasonableDate JsDate.fullYear at h
    rw [if_neg hv] at h
    simp at h

theorem formatDMY_of_valid {dt : JsDate} (h : dt.valid = true) :
    ∃ strv, formatDMY dt = some strv := by
  unfold formatDMY
  rw [if_pos h]
  exact ⟨_, rfl⟩

theorem getReportingPeriod_valid (cy : Nat) (pd : ParsedDsnData) :
    ∃ rp, getReportingPeriod cy pd = some rp ∧
      rp.startDate.valid = true ∧ rp.endDate.valid = true := by
  simp only [getReportingPeriod]
  split_ifs with hempty
  · exact ⟨_, rfl, rfl, rfl⟩
  · split
    · exact ⟨_, rfl, rfl, rfl⟩
    · rename_i d0 rest heq
      have hd0mem : d0 ∈ (sortByTime (collectDates (getAllEmployees pd))).filter
          (reasonableDate cy) := by
        rw [heq]
        exact List.mem_cons_self d0 rest
      have hd0 : reasonableDate cy d0 = true := (List.mem_filter.mp hd0mem).2
      have hlmem : (d0 :: rest).getLast (List.cons_ne_nil d0 rest) ∈
          (sortByTime (collectDates (getAllEmployees pd))).filter (reasonableDate cy) := by
        rw [heq]
        exact List.getLast_mem _
      have hlast : reasonableDate cy ((d0 :: rest).getLast (List.cons_ne_nil d0 rest)) = true :=
        (List.mem_filter.mp hlmem).2
      have hv0 := reasonableDate_valid hd0
      have hvl := reasonableDate_valid hlast
      obtain ⟨s1, hs1⟩ := formatDMY_of_valid hv0
      obtain ⟨s2, hs2⟩ := formatDMY_of_valid hvl
      rw [hs1, hs2]
      exact ⟨_, rfl, hv0, hvl⟩

theorem generateContextualInfo_some (pd : ParsedDsnData) {rp : ReportingPeriod}
    (hs : rp.startDate.valid = true) (he : rp.endDate.valid = true) :
    ∃ strv, generateContextualInfo pd rp = some strv := by
  obtain ⟨s1, h1⟩ := formatDMY_of_valid hs
  obtain ⟨s2, h2⟩ := formatDMY_of_valid he
  unfold generateContextualInfo
  rw [h1, h2]
  exact ⟨_, rfl⟩

theorem generateFinancialRelationship_some (pd : ParsedDsnData) {rp : ReportingPeriod}
    (he : rp.endDate.valid = true) :
    ∃ strv, generateFinancialRelationship pd rp = some strv := by
  obtain ⟨s2, h2⟩ := formatDMY_of_valid he
  simp only [generateFinancialRelationship]
  rw [h2]
  exact ⟨_, rfl⟩

theorem dateContrib_nil {b : Blk} {k : String} (h : fieldNoDate b k = true) :
    dateContrib b k = [] := by
  unfold fieldNoDate at h
  unfold dateContrib
  cases hf : getField b k with
  | none => rfl
  | some v =>
      rw [hf] at h
      have h2 : (v == "") = true ∨ (v.data.length != 8) = true := by
        simpa using h
      rcases h2 with hemp | hlen
      · have hveq : v = "" := eq_of_beq hemp
        subst hveq
        simp
      · have hnone : parseDsnDate v = none := by
          unfold parseDsnDate
          rw [if_pos (by rw [hlen]; simp)]
        simp [hnone]

theorem collectDates_nil {employees : List DsnEmployee}
    (h : ∀ emp ∈ employees, noCollectedDate emp = true) :
    collectDates employees = [] := by
  unfold collectDates
  rw [List.flatMap_eq_nil_iff]
  intro emp hemp
  have h3 := h emp hemp
  unfold noCollectedDate at h3
  rw [Bool.and_eq_true, Bool.and_eq_true] at h3
  obtain ⟨⟨h3a, h3b⟩, h3c⟩ := h3
  rw [dateContrib_nil h3a, dateContrib_nil h3b, dateContrib_nil h3c]
  rfl

theorem jsRound_eq_floor (q : ℚ) : jsRound q = ⌊q + 1 / 2⌋ := by
  unfold jsRound
  rw [Rat.floor_def', ← Rat.floor_def]

end Dsn

namespace Dsn

/-! ## Claim theorems -/

/-- C1 (counterexample): in `s20AfterContent`, `S21.G00.06` header+data
lines precede the first `S21.G00.30` marker and carry `nir = "X"` (as the
spec-side leading-blocks scan confirms), yet after `parseDsnContent`
completes the first employee's identity block is still empty: the `S20`
header after the first employee makes the backfill gate inspect the second
establishment's first employee (which has no identity container), so the
backfill never runs and the leading data is lost.  This falsifies the
claim as stated, which promises the leading values unconditionally. -/
theorem c1_counterexample :
    (leadingBlocks (dsnLines s20AfterContent)).1 = [("nir", "X")] ∧
    (firstEmployeeOfFirstEstablishment (parseDsnContent s20AfterContent "f" "t")).map
      (fun e => e.identity) = some (some []) := by decide

/-- C1 (amended): if after the main walk the backfill gate passes — the
establishment current at end of input has a first employee whose identity
container is allocated and empty (and, for the address part, whose address
container is empty as well) — then after `parseDsnContent` completes that
employee's identity and address blocks contain exactly the field values of
the `S21.G00.06`/`S21.G00.11` lines preceding the first employee-start
marker, mapped through the identity/address field tables; lines at or
after the first `S21.G00.30` header never contribute (the re-scan stops
there). -/
theorem c1_amended (content fn ts : String) (fe : DsnEmployee)
    (h1 : lastEstFirstEmp (mainWalk (dsnLines content)).establishments = some fe)
    (h2 : fe.identity = some []) (h3 : fe.address = some []) :
    ∃ fe2, lastEstFirstEmp (parseDsnContent content fn ts).company.establishments = some fe2 ∧
      fe2.identity = some (leadingBlocks (dsnLines content)).1 ∧
      fe2.address = some (leadingBlocks (dsnLines content)).2 := by
  rw [parseDsnContent_establishments]
  unfold lastEstFirstEmp at h1 ⊢
  cases hlast : (mainWalk (dsnLines content)).establishments.getLast? with
  | none => rw [hlast] at h1; simp at h1
  | some lastE =>
      rw [hlast] at h1
      dsimp only at h1
      cases hemps : lastE.employees with
      | nil => rw [hemps] at h1; simp at h1
      | cons e0 restEmp =>
          rw [hemps, List.head?_cons] at h1
          injection h1 with h1e
          subst h1e
          unfold applyBackfill
          rw [hlast]
          dsimp only
          rw [hemps]
          dsimp only
          rw [if_pos h2, getLast?_modifyLast, hlast]
          simp only [Option.map_some', backfillEst, hemps]
          refine ⟨_, rfl, ?_, ?_⟩ <;>
            rw [backfillFirstEmployeeData_spec (dsnLines content) e0 h2 h3]

/-- C1 (witness for the amended theorem): on `backfillOkContent` the gate
passes and the leading identity/address values are recovered. -/
theorem c1_witness :
    ∃ fe2, lastEstFirstEmp (parseDsnContent backfillOkContent "f" "t").company.establishments =
        some fe2 ∧
      fe2.identity = some [("nir", "X")] ∧ fe2.address = some [("siret", "Y")] := by
  obtain ⟨fe2, hmem, hid, had⟩ :=
    c1_amended backfillOkContent "f" "t" feBackfillOk (by decide) (by decide) (by decide)
  exact ⟨fe2, hmem, hid.trans (by decide), had.trans (by decide)⟩

/-- C2 (counterexample): parsing `twoEstContent` (two `S20` headers, one
employee each) yields a second establishment whose employee ids are `[2]`,
not `1..N = [1]`: the employee counter is global, never reset per
establishment.  This falsifies the claim as stated. -/
theorem c2_counterexample :
    ¬ ∀ est ∈ (parseDsnContent twoEstContent "f" "t").company.establishments,
        empIds est = List.range' 1 est.employees.length := by decide

/-- C2 (amended): across establishments in order, the employee ids of a
parse are exactly `1..totalEmployees` (strictly increasing, no gaps); and
within every single establishment the ids are consecutive integers
`k+0, k+1, ...` (strictly increasing with no gaps) — but they continue the
global sequence rather than restarting at 1. -/
theorem c2_amended (content fn ts : String) :
    flatIds (parseDsnContent content fn ts).company.establishments =
      List.range' 1 (parseDsnContent content fn ts).metadata.totalEmployees ∧
    ∀ est ∈ (parseDsnContent content fn ts).company.establishments,
      ∃ k, empIds est = List.range' k est.employees.length := by
  have hg := goodState_mainWalk (dsnLines content)
  have hflat : flatIds (parseDsnContent content fn ts).company.establishments =
      List.range' 1 (mainWalk (dsnLines content)).employeeCounter := by
    rw [parseDsnContent_establishments, flatIds_applyBackfill]
    exact hg.1
  have htot : (parseDsnContent content fn ts).metadata.totalEmployees =
      (mainWalk (dsnLines content)).employeeCounter := by
    show countTotalEmployees
        { companyInfo := (mainWalk (dsnLines content)).companyInfo,
          establishments :=
            applyBackfill (dsnLines content) (mainWalk (dsnLines content)).establishments } =
      (mainWalk (dsnLines content)).employeeCounter
    unfold countTotalEmployees
    rw [countTotalEmployees_aux]
    show 0 + (flatIds (applyBackfill (dsnLines content)
      (mainWalk (dsnLines content)).establishments)).length = _
    rw [flatIds_applyBackfill, hg.1]
    simp
  constructor
  · rw [htot]
    exact hflat
  · intro est hest
    exact empIds_segments _ 1 (mainWalk (dsnLines content)).employeeCounter hflat est hest

/-- C2 (witness): the amended consecutiveness applied to the concrete
second establishment of `twoEstContent` (ids `[2] = range' 2 1`). -/
theorem c2_witness :
    ∃ k, empIds estSecondTwoEst = List.range' k estSecondTwoEst.employees.length :=
  (c2_amended twoEstContent "f" "t").2 estSecondTwoEst (by decide)

/-- C3 (counterexample): in `twoEmpEmptyFirstEstContent` two `S20` headers
precede all employees, so the globally first employee (which owns the
identity/address containers, here with `nir = "X"` written into identity)
lands in the second establishment while the first establishment has no
employees; a second employee-start marker makes the parse yield 2
employees, satisfying the claim's "at least 2 employees" hypothesis.  An
employee that is NOT the first employee of the first establishment (which
does not even exist here) carries a non-empty identity block, falsifying
the claim as stated — with its hypothesis. -/
theorem c3_counterexample :
    (parseDsnContent twoEmpEmptyFirstEstContent "f" "t").metadata.totalEmployees ≥ 2 ∧
    ¬ ∀ est ∈ (parseDsnContent twoEmpEmptyFirstEstContent "f" "t").company.establishments,
        ∀ emp ∈ est.employees,
          some emp ≠ firstEmployeeOfFirstEstablishment
              (parseDsnContent twoEmpEmptyFirstEstContent "f" "t") →
            emp.identity.getD [] = [] ∧ emp.address.getD [] = [] := by decide

/-- C3 (amended): for every input, every employee other than the globally
first-created one (`employeeId = 1`) carries no identity container and no
address container at all — in particular no non-empty ones — even when the
raw file places `S21.G00.06`/`S21.G00.11` lines adjacent to later
employees.  ("First employee of the first establishment" in the original
claim must be read as "globally first-created employee": when several
`S20` headers precede all employees, that employee can sit in a later
establishment.) -/
theorem c3_amended (content fn ts : String) :
    ∀ est ∈ (parseDsnContent content fn ts).company.establishments,
      ∀ emp ∈ est.employees, emp.employeeId ≠ 1 →
        emp.identity = none ∧ emp.address = none := by
  have hg := goodState_mainWalk (dsnLines content)
  have hall : allEmps PnonFirst
      (parseDsnContent content fn ts).company.establishments := by
    rw [parseDsnContent_establishments]
    exact allEmps_applyBackfill (dsnLines content) hg.2
  exact hall

/-- C3 (witness): the second employee of the minimal two-employee scenario
file carries no identity/address containers. -/
theorem c3_witness : empTwoOfC9.identity = none ∧ empTwoOfC9.address = none :=
  c3_amended c9content "f" "t" estOfC9 (by decide) empTwoOfC9 (by decide) (by decide)

end Dsn

namespace Dsn

/-- C10: the backfill pass runs only when the establishment current at end
of input has at least one employee whose identity container is allocated
and empty.  Consequently, whenever the first employee of that (last)
establishment is not the globally first-created employee (id 1) — e.g. an
`S20` header appeared after the first employee — `parseDsnContent` returns
the main walk's establishment tree completely unchanged: identity/address
lines preceding the first employee-start marker are never backfilled, even
though the first employee's identity container ended up empty. -/
theorem c10_backfill_gating (content fn ts : String) (fe : DsnEmployee)
    (h1 : lastEstFirstEmp (mainWalk (dsnLines content)).establishments = some fe)
    (h2 : fe.employeeId ≠ 1) :
    (parseDsnContent content fn ts).company.establishments =
      (mainWalk (dsnLines content)).establishments := by
  rw [parseDsnContent_establishments]
  have hg := goodState_mainWalk (dsnLines content)
  unfold lastEstFirstEmp at h1
  cases hlast : (mainWalk (dsnLines content)).establishments.getLast? with
  | none => rw [hlast] at h1; simp at h1
  | some lastE =>
      rw [hlast] at h1
      dsimp only at h1
      cases hemps : lastE.employees with
      | nil => rw [hemps] at h1; simp at h1
      | cons e0 restEmp =>
          rw [hemps, List.head?_cons] at h1
          injection h1 with h1e
          subst h1e
          have hmemE : lastE ∈ (mainWalk (dsnLines content)).establishments :=
            mem_of_getLast? hlast
          have hmemF : e0 ∈ lastE.employees := by
            rw [hemps]
            exact List.mem_cons_self _ _
          obtain ⟨hi, _⟩ := hg.2 lastE hmemE e0 hmemF h2
          unfold applyBackfill
          rw [hlast]
          dsimp only
          rw [hemps]
          dsimp only
          rw [if_neg (by simp [hi])]

/-- C10 (witness): on `s20AfterContent` the last establishment's first
employee has id 2, so the parse equals the raw main walk. -/
theorem c10_witness :
    (parseDsnContent s20AfterContent "f" "t").company.establishments =
      (mainWalk (dsnLines s20AfterContent)).establishments :=
  c10_backfill_gating s20AfterContent "f" "t" empTwoS20After (by decide) (by decide)

/-- C4: for every structurally valid `ParsedDsnData` (establishments or
employee lists may be empty) and every clock year, `mapDsnToQuestions`
returns successfully (the `Option` layer modelling the JS exceptions of
`format`/`toISOString` is always `some`), and the produced answer map has
exactly the fixed, closed set of supported question identifiers as keys,
in order. -/
theorem c4_mapper_totality (currentYear : Nat) (parsedData : ParsedDsnData) :
    ∃ answers, mapDsnToQuestions currentYear parsedData = some answers ∧
      answers.map Prod.fst = supportedQuestionIds := by
  obtain ⟨rp, hrp, hs, he⟩ := getReportingPeriod_valid currentYear parsedData
  obtain ⟨s16, h16⟩ := generateContextualInfo_some parsedData hs he
  obtain ⟨s17, h17⟩ := generateFinancialRelationship_some parsedData he
  unfold mapDsnToQuestions
  rw [hrp]
  dsimp only
  rw [h16, h17]
  exact ⟨_, rfl, rfl⟩

/-- C5 (counterexample): `"abcdefgh"` is not an 8-digit `YYYYMMDD` date,
yet `parseDsnDate` does NOT return null on it: the string has length 8, so
the guard is passed and date-fns `parseISO` yields an Invalid Date object
(truthy, non-null).  This falsifies "for every string that is not an
8-digit YYYYMMDD date it returns null". -/
theorem c5_counterexample :
    isYyyymmddDate "abcdefgh" = false ∧
    parseDsnDate "abcdefgh" = some jsInvalidDate := by decide

/-- C5 (amended): `parseDsnDate` never throws (it is a total function in
this model; the internal try/catch guards a `parseISO` call that never
throws on strings); it returns null exactly for strings whose length is
not 8; for every length-8 string it returns a `Date` value, which is valid
precisely when the string is an 8-digit `YYYYMMDD` denoting a real
calendar date — and in that case it is the corresponding date — and is the
(non-null) Invalid Date value otherwise. -/
theorem c5_amended (s : String) :
    (parseDsnDate s = none ↔ s.data.length ≠ 8) ∧
    (∀ dt, parseDsnDate s = some dt → (dt.valid = true ↔ isYyyymmddDate s = true)) ∧
    (isYyyymmddDate s = true →
      parseDsnDate s = some (jsMkDate (natOfDigits (s.data.take 4))
        (natOfDigits ((s.data.drop 4).take 2)) (natOfDigits (s.data.drop 6)))) := by
  by_cases hlen : s.data.length = 8
  · have hne : (s == "") = false := by
      rw [beq_eq_false_iff_ne]
      intro h
      subst h
      simp at hlen
    have hval : parseDsnDate s = some (parseIso8 s.data) := by
      unfold parseDsnDate
      rw [if_neg (by rw [hne, hlen]; simp)]
    refine ⟨?_, ?_, ?_⟩
    · rw [hval]
      simp [hlen]
    · intro dt hdt
      rw [hval] at hdt
      injection hdt with hdt
      subst hdt
      unfold parseIso8
      split_ifs with hdig
      · dsimp only
        split_ifs with hrange
        · simp [isYyyymmddDate, jsMkDate, hlen, hdig, hrange]
        · simp [isYyyymmddDate, jsInvalidDate, hlen, hdig, hrange]
      · simp [isYyyymmddDate, jsInvalidDate, hlen, hdig]
    · intro hok
      have h3 := hok
      unfold isYyyymmddDate at h3
      rw [Bool.and_eq_true, Bool.and_eq_true] at h3
      obtain ⟨⟨hl8, hdig⟩, hrange⟩ := h3
      rw [hval]
      unfold parseIso8
      rw [if_pos hdig, if_pos hrange]
  · have hnone : parseDsnDate s = none := by
      unfold parseDsnDate
      rw [if_pos]
      rw [bne_iff_ne.mpr hlen]
      simp
    refine ⟨?_, ?_, ?_⟩
    · constructor
      · intro _
        exact hlen
      · intro _
        exact hnone
    · intro dt hdt
      rw [hnone] at hdt
      simp at hdt
    · intro hok
      unfold isYyyymmddDate at hok
      rw [Bool.and_eq_true, Bool.and_eq_true] at hok
      obtain ⟨⟨hl8, _⟩, _⟩ := hok
      exact absurd (by simpa using hl8) hlen

/-- C5 (witness): the leap-year date `"20240229"` is parsed into the
corresponding valid date. -/
theorem c5_witness : parseDsnDate "20240229" = some (jsMkDate 2024 2 29) := by
  have h := (c5_amended "20240229").2.2 (by decide)
  rw [h]
  decide

/-- C6 (counterexample): an employee whose only date field is the length-8
unparseable string `"abcdefgh"` contributes zero parseable dates (only an
Invalid Date is collected), yet the resolved period is the CURRENT-year
window (here 2026), not the documented fixed 2025 fallback window: the
fallback choice is driven by the raw collected-dates list, not by
parseability. -/
theorem c6_counterexample :
    (∀ dt ∈ collectDates (getAllEmployees (mkParsed [empBadDate])), dt.valid = false) ∧
    getReportingPeriod 2026 (mkParsed [empBadDate]) =
      some { startDate := jsMkDate 2026 1 1, endDate := jsMkDate 2026 12 31 } ∧
    getReportingPeriod 2026 (mkParsed [empBadDate]) ≠ some fallback2025 := by decide

/-- C6 (amended): the fixed 2025 fallback window is returned exactly on
the code's own trigger: when no `Date` value at all is collected, i.e.
every period-start / period-end / salary-period-start field of every
employee is absent, empty, or not of length 8.  (When length-8 unparseable
values are present, the current-year fallback is used instead.) -/
theorem c6_amended (currentYear : Nat) (parsedData : ParsedDsnData)
    (h : ∀ emp ∈ getAllEmployees parsedData, noCollectedDate emp = true) :
    getReportingPeriod currentYear parsedData = some fallback2025 := by
  simp only [getReportingPeriod]
  rw [collectDates_nil h]
  simp [fallback2025]

/-- C6 (witness): an employee list with a single too-short date string
resolves to the 2025 fallback window. -/
theorem c6_witness :
    getReportingPeriod 2026 (mkParsed [empShortDate]) = some fallback2025 :=
  c6_amended 2026 (mkParsed [empShortDate]) (by decide)

end Dsn

namespace Dsn

/-- C8 (counterexample): an employee with a contract start date and NIR
but no surname is counted by the average's filter yet not by the
end-of-period filter: the average answer is 1 while 80% of the
end-of-period answer (0) rounds to 0.  This falsifies "average = 80% of
the end-of-period headcount answer". -/
theorem c8_counterexample :
    calculateEmployeesEndOfPeriod [empNoSurname] rpSample = 0 ∧
    calculateEmployeesAverage [empNoSurname] rpSample = 1 ∧
    calculateEmployeesAverage [empNoSurname] rpSample ≠
      jsRound ((calculateEmployeesEndOfPeriod [empNoSurname] rpSample : ℚ) * (8 / 10)) := by
  have hend : calculateEmployeesEndOfPeriod [empNoSurname] rpSample = 0 := by decide
  have hflt : (List.filter (fun emp => truthy emp.contract "dateDebutContrat" &&
      truthy emp.personal "nir") [empNoSurname]).length = 1 := by decide
  have havg : calculateEmployeesAverage [empNoSurname] rpSample = 1 := by
    simp only [calculateEmployeesAverage, hflt]
    rw [jsRound_eq_floor]
    norm_num
  refine ⟨hend, havg, ?_⟩
  rw [havg, hend]
  rw [jsRound_eq_floor]
  norm_num

end Dsn

namespace Dsn

/-- C8 (amended): the average-during-period answer equals 80% (rounded to
the nearest integer, JS rounding) of the number of employees with a
non-empty contract start date and NIR — the surname requirement of the
end-of-period count is NOT applied.  Whenever every employee with contract
start date and NIR also has a non-empty surname, this coincides with 80%
of the end-of-period answer, which is the relation the original claim
states. -/
theorem c8_amended (employees : List DsnEmployee) (reportingPeriod : ReportingPeriod)
    (h : ∀ emp ∈ employees, truthy emp.contract "dateDebutContrat" = true →
      truthy emp.personal "nir" = true → truthy emp.personal "nomFamille" = true) :
    calculateEmployeesAverage employees reportingPeriod =
      jsRound ((calculateEmployeesEndOfPeriod employees reportingPeriod : ℚ) * (8 / 10)) := by
  have heq : employees.filter (fun emp => truthy emp.contract "dateDebutContrat" &&
        truthy emp.personal "nir" && truthy emp.personal "nomFamille") =
      employees.filter (fun emp => truthy emp.contract "dateDebutContrat" &&
        truthy emp.personal "nir") := by
    apply List.filter_congr
    intro emp hemp
    cases hA : truthy emp.contract "dateDebutContrat" with
    | false => simp [hA]
    | true =>
        cases hB : truthy emp.personal "nir" with
        | false => simp [hA, hB]
        | true => simp [hA, hB, h emp hemp hA hB]
  simp only [calculateEmployeesAverage, calculateEmployeesEndOfPeriod]
  rw [heq]

/-- C8 (witness): with a complete employee (contract start, NIR, surname)
the average answer equals 80% of the end-of-period answer, rounded. -/
theorem c8_witness :
    calculateEmployeesAverage [empComplete] rpSample =
      jsRound ((calculateEmployeesEndOfPeriod [empComplete] rpSample : ℚ) * (8 / 10)) :=
  c8_amended [empComplete] rpSample (by decide)

/-- C9: the minimal scenario file (two employee markers with one NIR data
line each, no establishment header) parses to exactly one auto-created
establishment holding employees 1 and 2 with the two NIR values in their
personal blocks; the first employee's identity/address containers exist
but hold no fields (the backfill pass runs and writes nothing), the second
employee has no such containers at all; the metadata counts are 2
employees and 1 establishment. -/
theorem c9_minimal_scenario :
    (parseDsnContent c9content "f" "t").company.establishments =
      [{ establishmentInfo := [],
         employees := [
           { employeeId := 1, identity := some [], address := some [],
             personal := [("nir", "123456789")], contract := [], salary := [], period := [] },
           { employeeId := 2, identity := none, address := none,
             personal := [("nir", "987654321")], contract := [], salary := [],
             period := [] }] }] ∧
    (parseDsnContent c9content "f" "t").metadata.totalEmployees = 2 ∧
    (parseDsnContent c9content "f" "t").metadata.totalEstablishments = 1 := by decide

end Dsn
